import Mathlib

/-!
Shallow embedding of `tf_data_loader/readers.py` (classes `DataReader` and
`DataNpzReader`) and proofs about it.

Modelling conventions:
* Python `dict`s are association lists with Python's semantics: insertion
  order is kept, inserting an existing key replaces the value in place
  (last write wins), lookup returns the unique entry for a key.
* The external collaborators (the TensorFlow library, the feature-handler
  classes in `tf_data_loader.allfeatures`, the filesystem, `glob`,
  `numpy`) are parameters of the embedded functions: opaque functions or
  structure fields supplied by the caller.
* Graph-mode TensorFlow calls (`iterator.get_next`, `tf.control_dependencies`,
  the `tf.data` pipeline combinators) build graph structure; the embedding
  records that structure (a list of draw records carrying their control
  dependencies, a dataset AST) so that claims about scheduling and pipeline
  shape are statable.
* Python runtime errors are an explicit `PyError` value in `Except`;
  Python's name-resolution rules (local / enclosing-global / builtin, with
  `UnboundLocalError` for a local read before its assignment) are embedded
  literally, since two functions of the source read undefined names.
* Each method returns its result paired with the post-state of `self`,
  translating the fact that a Python method body may assign to `self`
  attributes; none of the embedded bodies does.
-/

namespace TfDataLoader

/-! ## Python dict model -/

/-- Lookup in a Python dict (association list): value of the first entry
whose key matches. A genuine dict has at most one entry per key. -/
def pyFind {κ α : Type} [BEq κ] (d : List (κ × α)) (k : κ) : Option α :=
  match d with
  | [] => none
  | (k', v) :: rest => if k' == k then some v else pyFind rest k

/-- `d[k] = v` on a Python dict: if the key is present the value is replaced
in place (keeping the entry's position), otherwise the pair is appended. -/
def pyInsert {κ α : Type} [BEq κ] (d : List (κ × α)) (k : κ) (v : α) :
    List (κ × α) :=
  match d with
  | [] => [(k, v)]
  | (k', v') :: rest =>
    if k' == k then (k', v) :: rest else (k', v') :: pyInsert rest k v

/-- `d.update(other)`: insert every entry of `other` into `d`, in order. -/
def pyUpdate {κ α : Type} [BEq κ] (d other : List (κ × α)) : List (κ × α) :=
  other.foldl (fun acc kv => pyInsert acc kv.1 kv.2) d

/-- Build a dict from a list of pairs (a dict comprehension or `dict(...)`):
successive insertion into an empty dict, so on duplicate keys the last
pair wins. -/
def pyDict {κ α : Type} [BEq κ] (l : List (κ × α)) : List (κ × α) :=
  pyUpdate [] l

/-- The keys of a dict, in insertion order. -/
def pyKeys {κ α : Type} (d : List (κ × α)) : List κ :=
  d.map Prod.fst

/-! ## Python runtime errors and name resolution -/

/-- The Python exceptions the embedded code can raise. -/
inductive PyError where
  | nameError (n : String)
  | unboundLocalError (n : String)
  | keyError (k : String)
  | attributeError (n : String)
  | fileNotFoundError (path : String)
  | indexError
  deriving Repr, DecidableEq

/-- The names bound at module level of `readers.py`: the four `__future__`
imports bind nothing relevant beyond their own names, then the plain
imports and the two classes. -/
def moduleGlobals : List String :=
  ["absolute_import", "division", "print_function",
   "os", "glob", "datetime", "abc", "np", "tf", "yaml", "importlib", "sys",
   "DataReader", "DataNpzReader"]

/-- The Python builtins referenced by the module (a sufficient subset:
Python has no builtin named `repeat` or `data_sources`). -/
def pyBuiltins : List String :=
  ["open", "dict", "isinstance", "range", "getattr", "len", "print", "str"]

/-- Python name resolution inside a function body: a name assigned anywhere
in the body (or a parameter) is a local; reading a local before it is bound
raises `UnboundLocalError`; a non-local name is looked up in the module
globals and then the builtins, and raises `NameError` when absent. -/
def resolveName (n : String) (funcLocalNames boundLocals : List String) :
    Except PyError Unit :=
  if funcLocalNames.contains n then
    if boundLocals.contains n then Except.ok () else
      Except.error (PyError.unboundLocalError n)
  else if moduleGlobals.contains n || pyBuiltins.contains n then Except.ok ()
  else Except.error (PyError.nameError n)

/-! ## Values, samples, feature handlers -/

/-- A graph-mode TensorFlow value as the batching code discriminates it:
a `tf.SparseTensor`, a Python `dict` of member values (a graph feature),
or any other tensor, identified opaquely. -/
inductive TFValue where
  | tensor (id : Nat)
  | sparse (id : Nat)
  | dictVal (entries : List (String × TFValue))

instance : Inhabited TFValue := ⟨TFValue.tensor 0⟩

/-- A single sample: Python dict from feature key to value. -/
abbrev Sample := List (String × TFValue)

/-- An opaque serialized tfrecord. -/
abbrev Record := Nat

/-- The result of `tf.parse_single_example`: dict from read-descriptor key
to parsed tensor. -/
abbrev Example := List (String × TFValue)

/-- A read specification: dict from descriptor key to an opaque
read descriptor (the value returned by `get_feature_read`). -/
abbrev ReadSpec := List (String × Nat)

/-- A feed map / placeholder map: Python dict keyed by opaque placeholder
identity. -/
abbrev FeedMap := List (Nat × TFValue)

/-- An in-memory array stored in an npz archive, opaque. -/
abbrev NpArray := Nat

/-- The contents of an npz archive: mapping from key to stored array. -/
abbrev NpzDict := List (String × NpArray)

/-- A schema entry of `config.yaml`: a mapping; only string-valued fields
matter to the loader itself (`__name__` in particular). -/
abbrev YamlDict := List (String × String)

/-- A feature handler: an instance of a `MyFeature` subclass from
`tf_data_loader.allfeatures`. That module is an external collaborator, so
its per-feature behaviour is carried as opaque function fields; only the
handler surface used by `readers.py` is present. -/
structure MyFeature where
  /-- `feat.key`, the feature's identity string. -/
  key : String
  /-- `get_feature_read()`: the feature's read descriptors. -/
  feature_read : ReadSpec
  /-- `tensors_to_item(example)`: convert the parsed record to the value. -/
  tensors_to_item : Example → TFValue
  /-- `stack(values)`: stack single-sample values into one batched value. -/
  stack : List TFValue → TFValue
  /-- `get_placeholder_and_feature(batch)`: placeholder map and symbolic
  value. -/
  placeholder_and_feature : Bool → FeedMap × TFValue
  /-- The placeholder-to-value bindings this feature owns, given its own raw
  value from the caller's `value_dict` (used by the spec-modelled
  `get_feed_dict` below). -/
  feed_fn : FeedMap → TFValue → Bool → FeedMap

/-! ## DataReader construction (`DataReader.__init__`) -/

/-- The reader's state: the two attributes `__init__` assigns to `self`. -/
structure DataReader where
  data_dir : String
  features : List (String × MyFeature)

/-- One iteration of the `__init__` loop: look up `__name__` in the yaml
entry, resolve that class name on the `allfeatures` module (`getattr`
raises `AttributeError` when absent), and call `from_yaml_dict`. The
resolver stands for `importlib.import_module('.allfeatures', ...)` plus
`getattr`: it returns the class's `from_yaml_dict` factory. -/
def initStep (allfeatures_resolve : String → Option (YamlDict → MyFeature))
    (yaml_dict : YamlDict) : Except PyError MyFeature :=
  match pyFind yaml_dict "__name__" with
  | none => Except.error (PyError.keyError "__name__")
  | some nm =>
    match allfeatures_resolve nm with
    | none => Except.error (PyError.attributeError nm)
    | some from_yaml_dict => Except.ok (from_yaml_dict yaml_dict)

/-- The `for yaml_dict in yaml_list` loop of `__init__`: resolve each entry
in order, appending to `feature_list`; the first failing entry aborts the
constructor. -/
def buildFeatureList (allfeatures_resolve : String → Option (YamlDict → MyFeature)) :
    List YamlDict → Except PyError (List MyFeature)
  | [] => Except.ok []
  | yaml_dict :: rest =>
    match initStep allfeatures_resolve yaml_dict with
    | Except.error e => Except.error e
    | Except.ok feat =>
      match buildFeatureList allfeatures_resolve rest with
      | Except.error e => Except.error e
      | Except.ok feats => Except.ok (feat :: feats)

/-- `DataReader.__init__(data_dir)`: the yaml list is the parsed contents of
`<data_dir>/config.yaml`; `feature_list` is built entry by entry, then the
registry is the dict comprehension over `feat.key`. -/
def DataReader.init (data_dir : String) (yaml_list : List YamlDict)
    (allfeatures_resolve : String → Option (YamlDict → MyFeature)) :
    Except PyError DataReader :=
  match buildFeatureList allfeatures_resolve yaml_list with
  | Except.error e => Except.error e
  | Except.ok feature_list =>
    Except.ok ⟨data_dir, pyDict (feature_list.map (fun feat => (feat.key, feat)))⟩

/-! ## `DataReader.get_parser_op` -/

/-- The merged read specification: `keys_to_features` starts empty and is
updated with every feature's `get_feature_read()`, iterating the registry. -/
def keys_to_features (self : DataReader) : ReadSpec :=
  self.features.foldl (fun acc kv => pyUpdate acc kv.2.feature_read) []

/-- `DataReader.get_parser_op()`: returns `parser_op`, the closure that
parses one record with the merged read spec (`tf.parse_single_example`,
supplied as the external `parse` engine function) and builds the result by
a dict comprehension over the registry, converting each feature's portion
with `tensors_to_item`. Second component: post-state of `self`. -/
def DataReader.get_parser_op (self : DataReader)
    (parse : Record → ReadSpec → Example) :
    (Record → Sample) × DataReader :=
  (fun record =>
    let ex := parse record (keys_to_features self)
    pyDict (self.features.map (fun kv => (kv.1, kv.2.tensors_to_item ex))),
   self)

/-! ## `DataReader.get_tf_dataset` -/

/-- The `tf.data` pipeline as constructed: a symbolic AST, since every
combinator call merely builds graph structure. -/
inductive TFDatasetAst where
  | tfrecord (sources : List String)
  | mapped (d : TFDatasetAst)
  | repeated (d : TFDatasetAst) (count : Option Nat)
  | shuffled (d : TFDatasetAst) (buffer : Int)
  deriving Repr

/-- `os.path.join(a, b)` for the relative components this module passes. -/
def pathJoin (a b : String) : String := a ++ "/" ++ b

/-- `os.path.join(a, b, c)`. -/
def pathJoin3 (a b c : String) : String := pathJoin (pathJoin a b) c

/-- The local names of `get_tf_dataset`: its parameters and the names its
body assigns (`data_sources`, `dataset`). `repeat` is not among them. -/
def get_tf_dataset_localNames : List String :=
  ["self", "name", "data_sources", "dataset"]

/-- `DataReader.get_tf_dataset(name)`: glob the tfrecord files of the mode,
build `TFRecordDataset`, map the parser over it, then evaluate
`dataset.repeat(repeat)`. The name `repeat` is not a parameter, is never
assigned in the body, and is not a module global or builtin, so resolving
it raises; the `ok` branch of that resolution is unreachable (there is no
binding whose value could be passed to `repeat`, so it supplies `none`
vacuously). `globFn` is the external `glob.glob`. -/
def DataReader.get_tf_dataset (self : DataReader)
    (globFn : String → List String) (name : String) :
    Except PyError TFDatasetAst × DataReader :=
  let data_sources := globFn (pathJoin3 self.data_dir name "*.tfrecords")
  let dataset := TFDatasetAst.tfrecord data_sources
  let dataset := TFDatasetAst.mapped dataset
  match resolveName "repeat" get_tf_dataset_localNames
      ["self", "name", "data_sources", "dataset"] with
  | Except.error e => (Except.error e, self)
  | Except.ok _ => (Except.ok (TFDatasetAst.repeated dataset none), self)

/-! ## `DataReader.make_batch_with_iterator` -/

/-- A one-shot iterator node of the graph: the engine-determined stream of
samples its successive `get_next` ops will produce, and how many `get_next`
ops have been created on it so far. -/
structure GraphIterator where
  stream : Nat → Sample
  nextIdx : Nat

/-- One `iterator.get_next()` op as recorded in the graph: the sample it
yields and the control dependencies it was placed under. -/
structure DrawRecord where
  sample : Sample
  ctl_deps : List TFValue

instance : Inhabited DrawRecord := ⟨⟨[], []⟩⟩

/-- The `deps` list built from `batch[-1].items()`: skip `tf.SparseTensor`
values, extend with the member values of a `dict` value, append any other
value. -/
def depsOfSample (s : Sample) : List TFValue :=
  s.foldl (fun deps kx =>
    match kx.2 with
    | TFValue.sparse _ => deps
    | TFValue.dictVal m => deps ++ m.map Prod.snd
    | TFValue.tensor i => deps ++ [TFValue.tensor i]) []

/-- The same dependency set, written entrywise: a sparse value contributes
nothing, a dict value contributes its members, a tensor contributes
itself. -/
def nonSparseDeps (s : Sample) : List TFValue :=
  s.flatMap (fun kx =>
    match kx.2 with
    | TFValue.sparse _ => []
    | TFValue.dictVal m => m.map Prod.snd
    | TFValue.tensor i => [TFValue.tensor i])

/-- The `for _ in range(batch_size-1)` loop: compute `deps` from the last
draw, then create the next `get_next` op under `tf.control_dependencies(deps)`
and append it. -/
def batchLoop (it : GraphIterator) (batch : List DrawRecord) :
    Nat → List DrawRecord × GraphIterator
  | 0 => (batch, it)
  | Nat.succ n =>
    let deps := depsOfSample (batch.getLast?.getD default).sample
    let s := it.stream it.nextIdx
    let it' : GraphIterator := ⟨it.stream, it.nextIdx + 1⟩
    batchLoop it' (batch ++ [⟨s, deps⟩]) n

/-- The dependency contribution of one entry of a drawn sample (the
entrywise reading of `depsOfSample`). -/
def depsEntry (kx : String × TFValue) : List TFValue :=
  match kx.2 with
  | TFValue.sparse _ => []
  | TFValue.dictVal m => m.map Prod.snd
  | TFValue.tensor i => [TFValue.tensor i]

/-- The draw records the `range(batch_size-1)` loop generates, written
forward: starting at stream position `base`, with `prev` the sample of the
preceding draw. -/
def drawsFrom (stream : Nat → Sample) (base : Nat) (prev : Sample) :
    Nat → List DrawRecord
  | 0 => []
  | Nat.succ n =>
    ⟨stream base, depsOfSample prev⟩ ::
      drawsFrom stream (base + 1) (stream base) n

/-- The complete list of `get_next` draws `make_batch_with_iterator`
creates when `batch_size ≥ 1`: the unconditional first draw, then the
loop's draws. -/
def drawsList (it : GraphIterator) (batch_size : Int) : List DrawRecord :=
  ⟨it.stream it.nextIdx, []⟩ ::
    drawsFrom it.stream (it.nextIdx + 1) (it.stream it.nextIdx)
      (batch_size - 1).toNat

/-- `batch[b][key]` for each index `b` of the given list: indexing `batch`
out of range is an `IndexError`, a missing key in a drawn sample a
`KeyError`. -/
def collectVals (batch : List DrawRecord) (key : String) :
    List Nat → Except PyError (List TFValue)
  | [] => Except.ok []
  | b :: rest =>
    match batch.get? b with
    | none => Except.error PyError.indexError
    | some dr =>
      match pyFind dr.sample key with
      | none => Except.error (PyError.keyError key)
      | some v =>
        match collectVals batch key rest with
        | Except.error e => Except.error e
        | Except.ok vs => Except.ok (v :: vs)

/-- The list comprehension `[batch[b][key] for b in range(batch_size)]`;
`range` of a non-positive count is empty. -/
def stackKeyValues (batch : List DrawRecord) (key : String)
    (batch_size : Int) : Except PyError (List TFValue) :=
  collectVals batch key (List.range batch_size.toNat)

/-- The output loop body, iterating the remaining registry entries with the
`sample` dict accumulated so far. -/
def buildSampleGo (batch : List DrawRecord) (batch_size : Int) :
    List (String × MyFeature) → Sample → Except PyError Sample
  | [], sample => Except.ok sample
  | kv :: rest, sample =>
    match stackKeyValues batch kv.1 batch_size with
    | Except.error e => Except.error e
    | Except.ok vals =>
      buildSampleGo batch batch_size rest
        (pyInsert sample kv.1 (kv.2.stack vals))

/-- The output loop: `sample = {}` then, iterating the registry in order,
`sample[key] = value.stack([batch[b][key] for b in range(batch_size)])`. -/
def buildSample (features : List (String × MyFeature))
    (batch : List DrawRecord) (batch_size : Int) : Except PyError Sample :=
  buildSampleGo batch batch_size features []

/-- `DataReader.make_batch_with_iterator(iterator, batch_size)`: one
unconditional first draw, then, only when `batch_size > 1`,
`batch_size - 1` further draws each under control dependencies on the
previous draw; finally the per-key stacking loop. Returns the result, the
recorded draws, the iterator node state, and the post-state of `self`. -/
def DataReader.make_batch_with_iterator (self : DataReader)
    (iterator : GraphIterator) (batch_size : Int) :
    (Except PyError Sample × List DrawRecord × GraphIterator) × DataReader :=
  let s0 := iterator.stream iterator.nextIdx
  let it1 : GraphIterator := ⟨iterator.stream, iterator.nextIdx + 1⟩
  let batch0 : List DrawRecord := [⟨s0, []⟩]
  let bi :=
    if batch_size > 1 then batchLoop it1 batch0 (batch_size - 1).toNat
    else (batch0, it1)
  ((buildSample self.features bi.1 batch_size, bi.1, bi.2), self)

/-! ## `DataReader.get_standard_batch` -/

/-- What one call of `get_standard_batch` constructed: the pipeline AST
(absent when the call failed before building it), the recorded draws, and
the returned batch or the raised exception. -/
structure StdBatchTrace where
  dataset : Option TFDatasetAst
  draws : List DrawRecord
  result : Except PyError Sample

/-- The local names of `get_standard_batch`: its five parameters (besides
`self`) and the names its body assigns. -/
def get_standard_batch_localNames : List String :=
  ["self", "name", "batch_size", "shuffle_data", "buffer_size", "repeat",
   "data_sources", "dataset", "iterator", "batch"]

/-- The locals already bound when `np.random.shuffle(data_sources)` runs:
the parameters only — `data_sources` is assigned on the following line, so
reading it here finds a local that is not yet bound. -/
def get_standard_batch_boundAtShuffle : List String :=
  ["self", "name", "batch_size", "shuffle_data", "buffer_size", "repeat"]

/-- `DataReader.get_standard_batch(name, batch_size, shuffle_data=True,
buffer_size=None, repeat=None)`: default the buffer size to
`5 * batch_size`, then (when `shuffle_data`) evaluate
`np.random.shuffle(data_sources)` — whose argument is an unbound local —
then glob the sources, build the pipeline (`repeat` IS a parameter here),
optionally shuffle it, make a one-shot iterator (`mkIterator`, the
engine's iterator over a pipeline) and delegate to
`make_batch_with_iterator`. In the branch where the shuffle call resolved
its argument, there is no value to shuffle, so the branch is unreachable;
the embedding continues with the globbed list unchanged there. -/
def DataReader.get_standard_batch (self : DataReader)
    (globFn : String → List String) (mkIterator : TFDatasetAst → GraphIterator)
    (name : String) (batch_size : Int) (shuffle_data : Bool)
    (buffer_size : Option Int) (repeatCount : Option Nat) :
    StdBatchTrace × DataReader :=
  let buffer_size : Int :=
    match buffer_size with
    | none => 5 * batch_size
    | some b => b
  match (if shuffle_data then
          resolveName "data_sources" get_standard_batch_localNames
            get_standard_batch_boundAtShuffle
        else Except.ok ()) with
  | Except.error e => (⟨none, [], Except.error e⟩, self)
  | Except.ok _ =>
    let data_sources := globFn (pathJoin3 self.data_dir name "*.tfrecords")
    let dataset := TFDatasetAst.tfrecord data_sources
    let dataset := TFDatasetAst.mapped dataset
    let dataset := TFDatasetAst.repeated dataset repeatCount
    let dataset :=
      if shuffle_data then TFDatasetAst.shuffled dataset buffer_size
      else dataset
    let iterator := mkIterator dataset
    let ((res, draws, _itF), self') :=
      self.make_batch_with_iterator iterator batch_size
    (⟨some dataset, draws, res⟩, self')

/-! ## `DataNpzReader` -/

/-- `DataNpzReader` adds no state of its own to `DataReader`. -/
abbrev DataNpzReader := DataReader

/-- `DataNpzReader.get_placeholders(batch=True)`: start from empty
`placeholders` and `sample` dicts; for each feature, merge its placeholder
map into `placeholders` and record its symbolic value under its key;
return `(sample, placeholders)`. -/
def DataNpzReader.get_placeholders (self : DataNpzReader) (batch : Bool) :
    (Sample × FeedMap) × DataNpzReader :=
  let (placeholders, sample) :=
    self.features.foldl (fun acc kv =>
      let pv := kv.2.placeholder_and_feature batch
      (pyUpdate acc.1 pv.1, pyInsert acc.2 kv.1 pv.2))
      (([] : FeedMap), ([] : Sample))
  ((sample, placeholders), self)

/-- Modelled from the spec: the feature-handler method `get_feed_dict` of
the `allfeatures` classes (not under `src/`) produces the subset of the
feed mapping (placeholder to concrete value) the feature owns, given the
full placeholder set and the caller-supplied raw values, and fails if its
required raw value is absent from `value_dict`. -/
def MyFeature.get_feed_dict (feat : MyFeature) (placeholders : FeedMap)
    (value_dict : Sample) (batch : Bool) : Except PyError FeedMap :=
  match pyFind value_dict feat.key with
  | none => Except.error (PyError.keyError feat.key)
  | some v => Except.ok (feat.feed_fn placeholders v batch)

/-- The `get_feed_dict` loop, iterating the remaining registry entries with
the `feed_dict` accumulated so far; a feature's exception propagates. -/
def feedDictGo (placeholders : FeedMap) (value_dict : Sample) (batch : Bool) :
    List (String × MyFeature) → FeedMap → Except PyError FeedMap
  | [], feed_dict => Except.ok feed_dict
  | kv :: rest, feed_dict =>
    match kv.2.get_feed_dict placeholders value_dict batch with
    | Except.error e => Except.error e
    | Except.ok sub => feedDictGo placeholders value_dict batch rest
        (pyUpdate feed_dict sub)

/-- `DataNpzReader.get_feed_dict(placeholders, value_dict, batch)`:
`feed_dict = {}` then, for every feature of the registry,
`feed_dict.update(value.get_feed_dict(placeholders, value_dict, batch))`. -/
def DataNpzReader.get_feed_dict (self : DataNpzReader)
    (placeholders : FeedMap) (value_dict : Sample) (batch : Bool) :
    Except PyError FeedMap × DataNpzReader :=
  (feedDictGo placeholders value_dict batch self.features [], self)

/-- A decimal numeral left-padded with zeros to the requested width. -/
def padZeros (s : String) (width : Nat) : String :=
  String.mk (List.replicate (width - s.length) '0') ++ s

/-- Python `'{0:04d}'.format(i)` (written here with `0` for the brace
contents): minimum width 4, zero-filled, the sign counting toward the
width; wider numbers are printed in full. -/
def format04d (i : Int) : String :=
  if i < 0 then "-" ++ padZeros (Nat.repr i.natAbs) 3
  else padZeros (Nat.repr i.toNat) 4

/-- `DataNpzReader.load_npz_file(name, index)`: build the file name from
`data_dir`, `name` and the zero-padded index, `open` it (`fs` is the
filesystem: the archive contents at each existing path; a missing path
raises the not-found error), and return `dict(np.load(f))`, the archive's
entire key-to-array mapping. The registry is never consulted. -/
def DataNpzReader.load_npz_file (self : DataNpzReader)
    (fs : String → Option NpzDict) (name : String) (index : Int) :
    Except PyError NpzDict × DataNpzReader :=
  let fname := pathJoin3 self.data_dir name (format04d index ++ ".npz")
  match fs fname with
  | none => (Except.error (PyError.fileNotFoundError fname), self)
  | some contents => (Except.ok (pyDict contents), self)

/-! ## Concrete fixtures, used to evaluate the embedding on closed inputs -/

/-- A concrete feature handler with key `k` and placeholder id `n`:
`tensors_to_item` reads the example under `k`, `stack` wraps the values in
a dict value, `feed_fn` binds placeholder `n` to the raw value. -/
def testFeature (k : String) (n : Nat) : MyFeature where
  key := k
  feature_read := [(k, n)]
  tensors_to_item := fun ex => (pyFind ex k).getD default
  stack := fun l => TFValue.dictVal (l.map (fun v => ("v", v)))
  placeholder_and_feature := fun _ => ([(n, TFValue.tensor n)], TFValue.tensor n)
  feed_fn := fun _ v _ => [(n, v)]

/-- A reader with two features, keys `x` and `y`. -/
def testReader : DataReader :=
  ⟨"/data", [("x", testFeature "x" 1), ("y", testFeature "y" 2)]⟩

/-- A sample stream with a dense, a sparse and a dict-valued entry. -/
def testStream : Nat → Sample := fun n =>
  [("x", TFValue.tensor (10 * n + 1)),
   ("y", TFValue.sparse n),
   ("z", TFValue.dictVal [("m", TFValue.tensor (100 + n))])]

/-- A fresh iterator over `testStream`. -/
def testIterator : GraphIterator := ⟨testStream, 0⟩

/-- A resolver with one handler class whose `from_yaml_dict` reads the
`key` and `n` fields of the schema entry. -/
def testResolve : String → Option (YamlDict → MyFeature) :=
  fun nm =>
    if nm = "TensorFeature" then
      some (fun yd => testFeature ((pyFind yd "key").getD "x")
        ((pyFind yd "n").getD "").length)
    else none

/-- A schema with a duplicate key: entries 1 and 3 both declare key `x`. -/
def testYaml : List YamlDict :=
  [[("__name__", "TensorFeature"), ("key", "x"), ("n", "a")],
   [("__name__", "TensorFeature"), ("key", "y"), ("n", "aa")],
   [("__name__", "TensorFeature"), ("key", "x"), ("n", "aaa")]]

/-- The reader `DataReader.init` builds from `testYaml`: one entry per
unique key, the last `x` entry winning. -/
def testDupReader : DataReader :=
  ⟨"/data", [("x", testFeature "x" 3), ("y", testFeature "y" 2)]⟩

/-- A parse engine for the witness: parsed tensors under keys `x`, `y`. -/
def testParse : Record → ReadSpec → Example := fun record _ =>
  [("x", TFValue.tensor record), ("y", TFValue.tensor (record + 1))]

/-- A filesystem with a single archive at `/data/data_test/0007.npz`. -/
def testFs : String → Option NpzDict := fun p =>
  if p = "/data/data_test/0007.npz" then some [("x", 42)] else none

/-! ## Lemmas about the Python dict model -/

theorem pyFind_pyInsert {κ α : Type} [BEq κ] [LawfulBEq κ]
    (d : List (κ × α)) (k k' : κ) (v : α) :
    pyFind (pyInsert d k v) k' = if k' == k then some v else pyFind d k' := by
  induction d with
  | nil =>
    by_cases h : k' = k
    · subst h; simp [pyInsert, pyFind]
    · simp [pyInsert, pyFind, h, Ne.symm h]
  | cons hd tl ih =>
    obtain ⟨k0, v0⟩ := hd
    by_cases h0 : k0 = k
    · subst h0
      by_cases h1 : k' = k0
      · subst h1; simp [pyInsert, pyFind]
      · simp [pyInsert, pyFind, h1, Ne.symm h1]
    · by_cases h1 : k' = k0
      · subst h1
        simp [pyInsert, pyFind, h0]
      · simp [pyInsert, pyFind, h0, Ne.symm h1, h1, ih]

theorem pyFind_eq_none_iff {κ α : Type} [BEq κ] [LawfulBEq κ]
    (d : List (κ × α)) (k : κ) :
    pyFind d k = none ↔ k ∉ pyKeys d := by
  induction d with
  | nil => simp [pyFind, pyKeys]
  | cons hd tl ih =>
    obtain ⟨k0, v0⟩ := hd
    by_cases h0 : k0 = k
    · subst h0; simp [pyFind, pyKeys]
    · simp only [pyFind, pyKeys, List.map_cons, List.mem_cons]
      simp only [pyKeys] at ih
      simp [h0, Ne.symm h0, ih]

theorem pyInsert_of_not_mem {κ α : Type} [BEq κ] [LawfulBEq κ]
    (d : List (κ × α)) (k : κ) (v : α)
    (h : k ∉ pyKeys d) : pyInsert d k v = d ++ [(k, v)] := by
  induction d with
  | nil => simp [pyInsert]
  | cons hd tl ih =>
    obtain ⟨k0, v0⟩ := hd
    simp only [pyKeys, List.map_cons, List.mem_cons, not_or] at h
    simp only [pyInsert, List.cons_append]
    rw [if_neg (by simp [beq_iff_eq]; exact fun e => h.1 e.symm)]
    rw [ih (by simpa [pyKeys] using h.2)]

theorem pyKeys_pyInsert_of_mem {κ α : Type} [BEq κ] [LawfulBEq κ]
    (d : List (κ × α)) (k : κ) (v : α)
    (h : k ∈ pyKeys d) : pyKeys (pyInsert d k v) = pyKeys d := by
  induction d with
  | nil => simp [pyKeys] at h
  | cons hd tl ih =>
    obtain ⟨k0, v0⟩ := hd
    by_cases h0 : k0 = k
    · subst h0; simp [pyInsert, pyKeys]
    · simp only [pyKeys, List.map_cons, List.mem_cons] at h
      rcases h with h | h
      · exact absurd h.symm h0
      · simp only [pyInsert, pyKeys, List.map_cons]
        rw [if_neg (by simp [beq_iff_eq]; exact fun e => h0 e)]
        simp only [pyKeys, List.map_cons]
        rw [show List.map Prod.fst (pyInsert tl k v) = pyKeys (pyInsert tl k v)
              from rfl,
            ih (by simpa [pyKeys] using h)]
        rfl

theorem pyUpdate_append {κ α : Type} [BEq κ]
    (d : List (κ × α)) (l l' : List (κ × α)) :
    pyUpdate d (l ++ l') = pyUpdate (pyUpdate d l) l' := by
  simp [pyUpdate, List.foldl_append]

theorem pyDict_append_single {κ α : Type} [BEq κ]
    (l : List (κ × α)) (kv : κ × α) :
    pyDict (l ++ [kv]) = pyInsert (pyDict l) kv.1 kv.2 := by
  simp [pyDict, pyUpdate_append, pyUpdate]

theorem pyKeys_pyDict_nodup {κ α : Type} [BEq κ] [LawfulBEq κ]
    (l : List (κ × α)) :
    (pyKeys (pyDict l)).Nodup := by
  induction l using List.reverseRecOn with
  | nil => simp [pyDict, pyUpdate, pyKeys]
  | append_singleton l kv ih =>
    rw [pyDict_append_single]
    by_cases h : kv.1 ∈ pyKeys (pyDict l)
    · rw [pyKeys_pyInsert_of_mem _ _ _ h]; exact ih
    · rw [pyInsert_of_not_mem _ _ _ h]
      simp only [pyKeys, List.map_append, List.map_cons, List.map_nil]
      exact List.Nodup.append ih (by simp)
        (by simpa [pyKeys, List.disjoint_singleton] using h)

theorem pyFind_pyDict {κ α : Type} [BEq κ] [LawfulBEq κ]
    (l : List (κ × α)) (k : κ) :
    pyFind (pyDict l) k =
      ((l.filter (fun p => p.1 == k)).getLast?).map Prod.snd := by
  induction l using List.reverseRecOn with
  | nil => simp [pyDict, pyUpdate, pyFind]
  | append_singleton l kv ih =>
    rw [pyDict_append_single, pyFind_pyInsert]
    by_cases h : k = kv.1
    · subst h
      simp [List.filter_append, List.getLast?_append]
    · have h' : ¬ (kv.1 == k) = true := by
        simp [beq_iff_eq]; exact fun e => h e.symm
      simp [List.filter_append, h, h', ih]

theorem pyDict_of_nodup {κ α : Type} [BEq κ] [LawfulBEq κ]
    (l : List (κ × α)) (h : (pyKeys l).Nodup) :
    pyDict l = l := by
  induction l using List.reverseRecOn with
  | nil => simp [pyDict, pyUpdate]
  | append_singleton l kv ih =>
    simp only [pyKeys, List.map_append, List.map_cons, List.map_nil] at h
    have h1 : (pyKeys l).Nodup := (List.nodup_append.mp h).1
    have h2 : kv.1 ∉ pyKeys l := by
      have := (List.nodup_append.mp h).2.2
      simpa [pyKeys, List.disjoint_singleton] using this
    rw [pyDict_append_single, ih h1, pyInsert_of_not_mem _ _ _ h2]

/-! ## Lemmas about the batching loop -/

theorem foldl_append_flatMap {β γ : Type} (f : β → List γ) :
    ∀ (l : List β) (init : List γ),
      l.foldl (fun acc x => acc ++ f x) init = init ++ l.flatMap f := by
  intro l
  induction l with
  | nil => intro init; simp
  | cons hd tl ih => intro init; simp [List.foldl_cons, ih]

theorem depsOfSample_eq_nonSparseDeps (s : Sample) :
    depsOfSample s = nonSparseDeps s := by
  have hfn : (fun (deps : List TFValue) (kx : String × TFValue) =>
      match kx.2 with
      | TFValue.sparse _ => deps
      | TFValue.dictVal m => deps ++ m.map Prod.snd
      | TFValue.tensor i => deps ++ [TFValue.tensor i]) =
      (fun deps kx => deps ++ depsEntry kx) := by
    funext deps kx
    rcases kx with ⟨k, x⟩
    cases x <;> simp [depsEntry]
  have hentry : nonSparseDeps s = s.flatMap depsEntry := rfl
  rw [hentry]
  unfold depsOfSample
  rw [hfn, foldl_append_flatMap]
  exact List.nil_append _

theorem drawsFrom_length (stream : Nat → Sample) :
    ∀ (n : Nat) (base : Nat) (prev : Sample),
      (drawsFrom stream base prev n).length = n := by
  intro n
  induction n with
  | zero => intro base prev; rfl
  | succ n ih => intro base prev; simp [drawsFrom, ih]

theorem drawsFrom_get?_sample (stream : Nat → Sample) :
    ∀ (n : Nat) (base : Nat) (prev : Sample) (i : Nat), i < n →
      ((drawsFrom stream base prev n).get? i).map DrawRecord.sample =
        some (stream (base + i)) := by
  intro n
  induction n with
  | zero => intro base prev i h; omega
  | succ n ih =>
    intro base prev i h
    cases i with
    | zero => simp [drawsFrom]
    | succ i =>
      have := ih (base + 1) (stream base) i (by omega)
      simpa [drawsFrom, Nat.add_assoc, Nat.add_comm 1 i] using this

theorem drawsFrom_get?_deps_zero (stream : Nat → Sample)
    (n : Nat) (base : Nat) (prev : Sample) (h : 0 < n) :
    ((drawsFrom stream base prev n).get? 0).map DrawRecord.ctl_deps =
      some (depsOfSample prev) := by
  cases n with
  | zero => omega
  | succ n => simp [drawsFrom]

theorem drawsFrom_get?_deps_succ (stream : Nat → Sample) :
    ∀ (n : Nat) (base : Nat) (prev : Sample) (i : Nat), i + 1 < n →
      ((drawsFrom stream base prev n).get? (i + 1)).map DrawRecord.ctl_deps =
        some (depsOfSample (stream (base + i))) := by
  intro n
  induction n with
  | zero => intro base prev i h; omega
  | succ n ih =>
    intro base prev i h
    cases i with
    | zero =>
      cases n with
      | zero => omega
      | succ n => simp [drawsFrom]
    | succ i =>
      have := ih (base + 1) (stream base) i (by omega)
      simpa [drawsFrom, Nat.add_assoc, Nat.add_comm 1 i] using this

theorem batchLoop_eq :
    ∀ (n : Nat) (it : GraphIterator) (batch : List DrawRecord),
      batch ≠ [] →
      batchLoop it batch n =
        (batch ++ drawsFrom it.stream it.nextIdx
            ((batch.getLast?.getD default).sample) n,
         ⟨it.stream, it.nextIdx + n⟩) := by
  intro n
  induction n with
  | zero =>
    intro it batch _
    simp [batchLoop, drawsFrom]
  | succ n ih =>
    intro it batch hne
    rw [batchLoop]
    rw [ih ⟨it.stream, it.nextIdx + 1⟩ (batch ++ [_]) (by simp)]
    have hlast :
        ((batch ++ [(⟨it.stream it.nextIdx,
            depsOfSample ((batch.getLast?.getD default).sample)⟩ :
            DrawRecord)]).getLast?.getD default) =
          ⟨it.stream it.nextIdx,
            depsOfSample ((batch.getLast?.getD default).sample)⟩ := by
      simp [List.getLast?_append]
    rw [hlast]
    simp only [drawsFrom]
    have harith : it.nextIdx + 1 + n = it.nextIdx + (n + 1) := by omega
    rw [harith, List.append_assoc]
    rfl

theorem make_batch_eq (self : DataReader) (it : GraphIterator)
    (batch_size : Int) (h : 1 ≤ batch_size) :
    self.make_batch_with_iterator it batch_size =
      ((buildSample self.features (drawsList it batch_size) batch_size,
        drawsList it batch_size,
        ⟨it.stream, it.nextIdx + batch_size.toNat⟩), self) := by
  simp only [DataReader.make_batch_with_iterator]
  by_cases hb : batch_size > 1
  · rw [if_pos hb]
    rw [batchLoop_eq _ _ _ (by simp)]
    simp only [drawsList]
    have hn : it.nextIdx + 1 + (batch_size - 1).toNat =
        it.nextIdx + batch_size.toNat := by omega
    simp [List.getLast?, hn]
    omega
  · rw [if_neg hb]
    have hbs : batch_size = 1 := by omega
    subst hbs
    simp [drawsList, drawsFrom]

/-! ## Further helper lemmas -/

theorem getLast?_map_option {β γ : Type} (g : β → γ) :
    ∀ (l : List β), (l.map g).getLast? = l.getLast?.map g := by
  intro l
  induction l with
  | nil => rfl
  | cons a t ih =>
    cases t with
    | nil => rfl
    | cons b t' => simpa [List.getLast?_cons_cons] using ih

theorem buildFeatureList_length
    (resolve : String → Option (YamlDict → MyFeature)) :
    ∀ (l : List YamlDict) (fl : List MyFeature),
      buildFeatureList resolve l = Except.ok fl → fl.length = l.length := by
  intro l
  induction l with
  | nil =>
    intro fl h
    simp only [buildFeatureList] at h
    cases h
    rfl
  | cons hd tl ih =>
    intro fl h
    simp only [buildFeatureList] at h
    cases hstep : initStep resolve hd with
    | error e => rw [hstep] at h; cases h
    | ok feat =>
      rw [hstep] at h
      cases hrest : buildFeatureList resolve tl with
      | error e => rw [hrest] at h; cases h
      | ok feats =>
        rw [hrest] at h
        cases h
        simp [ih feats hrest]

theorem pyFind_of_mem_nodup {κ α : Type} [BEq κ] [LawfulBEq κ]
    (l : List (κ × α)) (h : (pyKeys l).Nodup) (kv : κ × α) (hm : kv ∈ l) :
    pyFind l kv.1 = some kv.2 := by
  induction l with
  | nil => cases hm
  | cons hd tl ih =>
    rcases List.mem_cons.mp hm with he | ht
    · subst he
      simp [pyFind]
    · have hkeys : (pyKeys tl).Nodup := by
        simpa [pyKeys] using (List.nodup_cons.mp (by simpa [pyKeys] using h)).2
      have hne : hd.1 ≠ kv.1 := by
        have h1 : hd.1 ∉ pyKeys tl :=
          (List.nodup_cons.mp (by simpa [pyKeys] using h)).1
        intro he
        exact h1 (he ▸ (by simpa [pyKeys] using List.mem_map_of_mem Prod.fst ht))
      obtain ⟨k0, v0⟩ := hd
      simp only [pyFind]
      rw [if_neg (by simpa [beq_iff_eq] using hne)]
      exact ih hkeys ht

theorem pyKeys_map_pair {κ α β : Type} (l : List (κ × α))
    (g : κ × α → β) :
    pyKeys (l.map (fun kv => (kv.1, g kv))) = pyKeys l := by
  simp [pyKeys, List.map_map]

theorem foldl_pyInsert_eq_pyDict {κ α β : Type} [BEq κ]
    (l : List (κ × β)) (g : κ × β → α) :
    l.foldl (fun s kv => pyInsert s kv.1 (g kv)) [] =
      pyDict (l.map (fun kv => (kv.1, g kv))) := by
  simp [pyDict, pyUpdate, List.foldl_map]

theorem collectVals_ok (batch : List DrawRecord) (key : String)
    (f : Nat → TFValue) :
    ∀ (l : List Nat),
      (∀ b ∈ l, ∃ dr, batch.get? b = some dr ∧
        pyFind dr.sample key = some (f b)) →
      collectVals batch key l = Except.ok (l.map f) := by
  intro l
  induction l with
  | nil => intro _; rfl
  | cons b rest ih =>
    intro h
    obtain ⟨dr, hdr, hfind⟩ := h b (by simp)
    have hrest := ih (fun b hb => h b (by simp [hb]))
    simp only [collectVals, hdr, hfind, hrest, List.map_cons]

theorem buildSampleGo_ok (batch : List DrawRecord) (batch_size : Int)
    (f : String → List TFValue) :
    ∀ (features : List (String × MyFeature)) (acc : Sample),
      (∀ kv ∈ features,
        stackKeyValues batch kv.1 batch_size = Except.ok (f kv.1)) →
      buildSampleGo batch batch_size features acc =
        Except.ok (features.foldl
          (fun s kv => pyInsert s kv.1 (kv.2.stack (f kv.1))) acc) := by
  intro features
  induction features with
  | nil => intro acc _; rfl
  | cons kv rest ih =>
    intro acc h
    have h0 := h kv (by simp)
    simp [buildSampleGo, h0, ih _ (fun kv hkv => h kv (by simp [hkv]))]

theorem drawsList_length (it : GraphIterator) (batch_size : Int)
    (h : 1 ≤ batch_size) :
    (drawsList it batch_size).length = batch_size.toNat := by
  simp [drawsList, drawsFrom_length]
  omega

theorem drawsList_get?_sample (it : GraphIterator) (batch_size : Int)
    (h : 1 ≤ batch_size) (b : Nat) (hb : b < batch_size.toNat) :
    ((drawsList it batch_size).get? b).map DrawRecord.sample =
      some (it.stream (it.nextIdx + b)) := by
  cases b with
  | zero => simp [drawsList]
  | succ j =>
    have hb' : j + 1 < batch_size.toNat := hb
    have hj : j < (batch_size - 1).toNat := by omega
    have hsamp := drawsFrom_get?_sample it.stream (batch_size - 1).toNat
      (it.nextIdx + 1) (it.stream it.nextIdx) j hj
    have harith : it.nextIdx + 1 + j = it.nextIdx + (j + 1) := by omega
    rw [harith] at hsamp
    simp only [drawsList, List.get?_cons_succ]
    exact hsamp

theorem feedDictGo_ok (placeholders : FeedMap) (value_dict : Sample)
    (batch : Bool) :
    ∀ (features : List (String × MyFeature)) (acc : FeedMap),
      (∀ kv ∈ features, (pyFind value_dict kv.2.key).isSome) →
      feedDictGo placeholders value_dict batch features acc =
        Except.ok (features.foldl (fun fd kv =>
          pyUpdate fd (kv.2.feed_fn placeholders
            ((pyFind value_dict kv.2.key).getD default) batch)) acc) := by
  intro features
  induction features with
  | nil => intro acc _; rfl
  | cons kv rest ih =>
    intro acc h
    have h0 := h kv (by simp)
    obtain ⟨v, hv⟩ := Option.isSome_iff_exists.mp h0
    simp [feedDictGo, MyFeature.get_feed_dict, hv,
      ih _ (fun kv hkv => h kv (by simp [hkv]))]

theorem feedDictGo_error (placeholders : FeedMap) (value_dict : Sample)
    (batch : Bool) :
    ∀ (features : List (String × MyFeature)) (acc : FeedMap),
      (∃ kv ∈ features, pyFind value_dict kv.2.key = none) →
      ∃ k, feedDictGo placeholders value_dict batch features acc =
        Except.error (PyError.keyError k) := by
  intro features
  induction features with
  | nil =>
    intro acc h
    obtain ⟨kv, hm, _⟩ := h
    cases hm
  | cons kv0 rest ih =>
    intro acc h
    cases hv : pyFind value_dict kv0.2.key with
    | none =>
      exact ⟨kv0.2.key, by simp [feedDictGo, MyFeature.get_feed_dict, hv]⟩
    | some v =>
      obtain ⟨kv, hm, hnone⟩ := h
      rcases List.mem_cons.mp hm with he | ht
      · subst he
        rw [hv] at hnone
        cases hnone
      · obtain ⟨k, hk⟩ := ih (pyUpdate acc (kv0.2.feed_fn placeholders v batch))
          ⟨kv, ht, hnone⟩
        exact ⟨k, by simp [feedDictGo, MyFeature.get_feed_dict, hv, hk]⟩

/-! ## Claims -/

/-- C1: for every valid schema (one whose entry-resolution loop succeeds,
producing `feature_list`), `DataReader.__init__` builds a registry keyed by
each FeatureSpec's key with exactly one entry per unique key (keys are
nodup), every registry entry is one of the resolved features stored under
its own key, the registry size equals the number of schema entries when
the keys are unique, and on duplicate keys the last schema entry's
FeatureSpec wins: lookup returns the last resolved feature bearing the
key. -/
theorem init_registry_last_write_wins (data_dir : String)
    (yaml_list : List YamlDict)
    (resolve : String → Option (YamlDict → MyFeature))
    (feature_list : List MyFeature) (r : DataReader)
    (hfl : buildFeatureList resolve yaml_list = Except.ok feature_list)
    (hr : DataReader.init data_dir yaml_list resolve = Except.ok r) :
    (pyKeys r.features).Nodup ∧
    (∀ k f, pyFind r.features k = some f → f.key = k ∧ f ∈ feature_list) ∧
    ((feature_list.map MyFeature.key).Nodup →
      r.features.length = yaml_list.length) ∧
    (∀ k, pyFind r.features k =
      (feature_list.filter (fun f => f.key == k)).getLast?) := by
  simp only [DataReader.init, hfl, Except.ok.injEq] at hr
  subst hr
  have hfilter : ∀ k, pyFind
      (pyDict (feature_list.map (fun feat => (feat.key, feat)))) k =
      (feature_list.filter (fun f => f.key == k)).getLast? := by
    intro k
    rw [pyFind_pyDict]
    rw [show (feature_list.map (fun feat => (feat.key, feat))).filter
          (fun p => p.1 == k) =
        (feature_list.filter (fun f => f.key == k)).map
          (fun feat => (feat.key, feat)) from List.filter_map ..]
    rw [getLast?_map_option]
    rw [Option.map_map]
    cases (feature_list.filter (fun f => f.key == k)).getLast? <;> rfl
  refine ⟨pyKeys_pyDict_nodup _, ?_, ?_, hfilter⟩
  · intro k f hf
    rw [hfilter k] at hf
    have hmem : f ∈ feature_list.filter (fun f => f.key == k) :=
      List.mem_of_mem_getLast? hf
    have := List.mem_filter.mp hmem
    exact ⟨by simpa [beq_iff_eq] using this.2, this.1⟩
  · intro hnd
    have hkeys : pyKeys (feature_list.map (fun feat => (feat.key, feat))) =
        feature_list.map MyFeature.key := by
      simp [pyKeys, List.map_map]
    have := pyDict_of_nodup (feature_list.map (fun feat => (feat.key, feat)))
      (by rw [hkeys]; exact hnd)
    rw [this, List.length_map]
    exact buildFeatureList_length resolve yaml_list feature_list hfl

/-- Witness for C1 on the concrete duplicate-key schema `testYaml`: the
registry keys are nodup and the `x` entry is the third schema entry's
feature (last write wins). -/
theorem init_registry_last_write_wins_witness :
    (pyKeys testDupReader.features).Nodup ∧
    pyFind testDupReader.features "x" = some (testFeature "x" 3) := by
  have h := init_registry_last_write_wins "/data" testYaml testResolve
    [testFeature "x" 1, testFeature "y" 2, testFeature "x" 3]
    testDupReader (by rfl) (by rfl)
  refine ⟨h.1, ?_⟩
  rw [h.2.2.2 "x"]
  rfl

/-- C2: the parser returned by `get_parser_op` maps every record to a
dict that literally is the registry list with each feature's
`tensors_to_item` applied to the parsed example — hence exactly one entry
per registered feature key (same key list), each value obtained from that
key's feature. -/
theorem get_parser_op_one_entry_per_key (self : DataReader)
    (parse : Record → ReadSpec → Example) (record : Record)
    (h : (pyKeys self.features).Nodup) :
    (self.get_parser_op parse).1 record =
      self.features.map (fun kv =>
        (kv.1, kv.2.tensors_to_item (parse record (keys_to_features self)))) ∧
    pyKeys ((self.get_parser_op parse).1 record) = pyKeys self.features ∧
    (∀ kv ∈ self.features,
      pyFind ((self.get_parser_op parse).1 record) kv.1 =
        some (kv.2.tensors_to_item (parse record (keys_to_features self)))) := by
  have hmain : (self.get_parser_op parse).1 record =
      self.features.map (fun kv =>
        (kv.1, kv.2.tensors_to_item (parse record (keys_to_features self)))) := by
    show pyDict _ = _
    apply pyDict_of_nodup
    rw [pyKeys_map_pair]
    exact h
  refine ⟨hmain, ?_, ?_⟩
  · rw [hmain, pyKeys_map_pair]
  · intro kv hkv
    rw [hmain]
    have hm : (kv.1, kv.2.tensors_to_item (parse record (keys_to_features self)))
        ∈ self.features.map (fun kv =>
          (kv.1, kv.2.tensors_to_item (parse record (keys_to_features self)))) :=
      List.mem_map_of_mem _ hkv
    have := pyFind_of_mem_nodup
      (self.features.map (fun kv =>
        (kv.1, kv.2.tensors_to_item (parse record (keys_to_features self)))))
      (by rw [pyKeys_map_pair]; exact h) _ hm
    exact this

/-- Witness for C2 on the concrete two-feature reader and parse engine:
the parsed dict has key list `x, y` and the `x` entry is the parsed
tensor for record 5. -/
theorem get_parser_op_one_entry_per_key_witness :
    pyKeys ((testReader.get_parser_op testParse).1 5) = ["x", "y"] ∧
    pyFind ((testReader.get_parser_op testParse).1 5) "x" =
      some (TFValue.tensor 5) := by
  have h := get_parser_op_one_entry_per_key testReader testParse 5 (by decide)
  constructor
  · rw [h.2.1]; rfl
  · have := h.2.2 ("x", testFeature "x" 1) (by simp [testReader])
    rw [this]
    rfl

/-- C5: in `get_tf_dataset` the name `repeat` read by the repeat step is
not a parameter or local of the function and not a module global or
builtin, and consequently every call fails with a `NameError` on
`repeat`. -/
theorem get_tf_dataset_repeat_name_error :
    ("repeat" ∉ get_tf_dataset_localNames ∧ "repeat" ∉ moduleGlobals ∧
      "repeat" ∉ pyBuiltins) ∧
    ∀ (self : DataReader) (globFn : String → List String) (name : String),
      (self.get_tf_dataset globFn name).1 =
        Except.error (PyError.nameError "repeat") := by
  refine ⟨by decide, ?_⟩
  intro self globFn name
  rfl

/-- C3: for every `batch_size ≥ 1`, `make_batch_with_iterator` creates
exactly `batch_size` successive `get_next` draws (the draw list has length
`batch_size` and the iterator's op counter advances by `batch_size`), draw
`b` yields the stream's sample number `b`, the first draw runs under no
control dependency, and each subsequent draw `i+1` is placed under control
dependencies consisting precisely of the previous draw's non-sparse
values — sparse entries contribute nothing, dict entries contribute their
member values, other tensors contribute themselves. -/
theorem make_batch_sequential_control_deps (self : DataReader)
    (it : GraphIterator) (batch_size : Int) (h : 1 ≤ batch_size) :
    (self.make_batch_with_iterator it batch_size).1.2.1.length =
      batch_size.toNat ∧
    (self.make_batch_with_iterator it batch_size).1.2.2.nextIdx =
      it.nextIdx + batch_size.toNat ∧
    (∀ b < batch_size.toNat,
      (((self.make_batch_with_iterator it batch_size).1.2.1.get? b).map
        DrawRecord.sample) = some (it.stream (it.nextIdx + b))) ∧
    ((((self.make_batch_with_iterator it batch_size).1.2.1.get? 0).map
        DrawRecord.ctl_deps) = some []) ∧
    (∀ i, i + 1 < batch_size.toNat →
      (((self.make_batch_with_iterator it batch_size).1.2.1.get? (i + 1)).map
        DrawRecord.ctl_deps) =
        some (nonSparseDeps (it.stream (it.nextIdx + i)))) := by
  rw [make_batch_eq self it batch_size h]
  refine ⟨drawsList_length it batch_size h, rfl,
    drawsList_get?_sample it batch_size h, by simp [drawsList], ?_⟩
  intro i hi
  simp only [drawsList, List.get?_cons_succ]
  cases i with
  | zero =>
    have h0 : 0 < (batch_size - 1).toNat := by omega
    rw [drawsFrom_get?_deps_zero it.stream (batch_size - 1).toNat
      (it.nextIdx + 1) (it.stream it.nextIdx) h0]
    rw [depsOfSample_eq_nonSparseDeps]
    simp
  | succ j =>
    have hj : j + 1 < (batch_size - 1).toNat := by omega
    rw [drawsFrom_get?_deps_succ it.stream (batch_size - 1).toNat
      (it.nextIdx + 1) (it.stream it.nextIdx) j hj]
    rw [depsOfSample_eq_nonSparseDeps]
    have harith : it.nextIdx + 1 + j = it.nextIdx + (j + 1) := by omega
    rw [harith]

/-- Witness for C3 at `batch_size = 3` on the concrete stream: three
draws, and draws 1 and 2 each depend on the previous sample's dense
tensor and the dict entry's member, skipping the sparse entry. -/
theorem make_batch_sequential_control_deps_witness :
    (testReader.make_batch_with_iterator testIterator 3).1.2.1.length = 3 ∧
    (((testReader.make_batch_with_iterator testIterator 3).1.2.1.get? 1).map
      DrawRecord.ctl_deps) =
      some [TFValue.tensor 1, TFValue.tensor 100] ∧
    (((testReader.make_batch_with_iterator testIterator 3).1.2.1.get? 2).map
      DrawRecord.ctl_deps) =
      some [TFValue.tensor 11, TFValue.tensor 101] := by
  have h := make_batch_sequential_control_deps testReader testIterator 3
    (by decide)
  refine ⟨h.1, ?_, ?_⟩
  · rw [h.2.2.2.2 0 (by decide)]
    rfl
  · rw [h.2.2.2.2 1 (by decide)]
    rfl

/-- C4: for every `batch_size ≥ 1` and every iterator whose samples carry
all registered keys, the returned mapping has one entry per registered
feature key in registry order, each value being that feature's `stack` of
the `batch_size` per-draw values for its key; the stacked list has length
`batch_size`. -/
theorem make_batch_stacks_batch_size_values (self : DataReader)
    (it : GraphIterator) (batch_size : Int)
    (h1 : 1 ≤ batch_size) (h2 : (pyKeys self.features).Nodup)
    (h3 : ∀ b < batch_size.toNat, ∀ kv ∈ self.features,
      (pyFind (it.stream (it.nextIdx + b)) kv.1).isSome) :
    (self.make_batch_with_iterator it batch_size).1.1 =
      Except.ok (self.features.map (fun kv => (kv.1, kv.2.stack
        ((List.range batch_size.toNat).map (fun b =>
          (pyFind (it.stream (it.nextIdx + b)) kv.1).getD default))))) ∧
    (∀ k, ((List.range batch_size.toNat).map (fun b =>
        (pyFind (it.stream (it.nextIdx + b)) k).getD default)).length =
      batch_size.toNat) := by
  constructor
  · have hstack : ∀ kv ∈ self.features,
        stackKeyValues (drawsList it batch_size) kv.1 batch_size =
          Except.ok ((List.range batch_size.toNat).map (fun b =>
            (pyFind (it.stream (it.nextIdx + b)) kv.1).getD default)) := by
      intro kv hkv
      unfold stackKeyValues
      apply collectVals_ok
      intro b hb
      have hblt : b < batch_size.toNat := List.mem_range.mp hb
      have hs := drawsList_get?_sample it batch_size h1 b hblt
      obtain ⟨dr, hdr, hsample⟩ := Option.map_eq_some'.mp hs
      refine ⟨dr, hdr, ?_⟩
      rw [hsample]
      obtain ⟨v, hv⟩ := Option.isSome_iff_exists.mp (h3 b hblt kv hkv)
      rw [hv]
      rfl
    have hgo := buildSampleGo_ok (drawsList it batch_size) batch_size
      (fun k => (List.range batch_size.toNat).map (fun b =>
        (pyFind (it.stream (it.nextIdx + b)) k).getD default))
      self.features [] hstack
    rw [make_batch_eq self it batch_size h1]
    show buildSample self.features (drawsList it batch_size) batch_size = _
    unfold buildSample
    rw [hgo]
    show Except.ok (self.features.foldl (fun s kv => pyInsert s kv.1
      (kv.2.stack ((List.range batch_size.toNat).map (fun b =>
        (pyFind (it.stream (it.nextIdx + b)) kv.1).getD default)))) []) = _
    rw [foldl_pyInsert_eq_pyDict self.features (fun kv =>
      kv.2.stack ((List.range batch_size.toNat).map (fun b =>
        (pyFind (it.stream (it.nextIdx + b)) kv.1).getD default)))]
    congr 1
    apply pyDict_of_nodup
    rw [pyKeys_map_pair]
    exact h2
  · intro k
    simp

/-- Witness for C4 at `batch_size = 2`: the batch maps `x` to the stack of
the two dense draws and `y` to the stack of the two sparse draws. -/
theorem make_batch_stacks_batch_size_values_witness :
    (testReader.make_batch_with_iterator testIterator 2).1.1 =
      Except.ok
        [("x", TFValue.dictVal [("v", TFValue.tensor 1),
                                ("v", TFValue.tensor 11)]),
         ("y", TFValue.dictVal [("v", TFValue.sparse 0),
                                ("v", TFValue.sparse 1)])] := by
  have h := make_batch_stacks_batch_size_values testReader testIterator 2
    (by decide) (by decide)
    (by
      intro b hb kv hkv
      simp only [testReader, List.mem_cons, List.not_mem_nil, or_false] at hkv
      have hb' : b < 2 := by omega
      interval_cases b <;> rcases hkv with rfl | rfl <;> rfl)
  rw [h.1]
  rfl

/-- C10: `make_batch_with_iterator` never validates `batch_size`: for
every `batch_size ≤ 1` (including 0 and negatives) exactly one draw is
still issued (one draw record, iterator advanced once), and for
`batch_size ≤ 0` the returned mapping asks each feature to stack an empty
list of values even though the iterator has been advanced. -/
theorem make_batch_no_batch_size_validation (self : DataReader)
    (it : GraphIterator) (batch_size : Int) (h : batch_size ≤ 1) :
    (self.make_batch_with_iterator it batch_size).1.2.1.length = 1 ∧
    (self.make_batch_with_iterator it batch_size).1.2.2.nextIdx =
      it.nextIdx + 1 ∧
    (batch_size ≤ 0 → (pyKeys self.features).Nodup →
      (self.make_batch_with_iterator it batch_size).1.1 =
        Except.ok (self.features.map (fun kv => (kv.1, kv.2.stack [])))) := by
  have hneg : ¬ batch_size > 1 := by omega
  refine ⟨?_, ?_, ?_⟩
  · simp [DataReader.make_batch_with_iterator, hneg]
  · simp [DataReader.make_batch_with_iterator, hneg]
  · intro h0 hnd
    have htoNat : batch_size.toNat = 0 := by omega
    have hstack : ∀ kv ∈ self.features,
        stackKeyValues [(⟨it.stream it.nextIdx, []⟩ : DrawRecord)] kv.1
          batch_size = Except.ok [] := by
      intro kv _
      unfold stackKeyValues
      rw [htoNat]
      rfl
    have hgo := buildSampleGo_ok
      [(⟨it.stream it.nextIdx, []⟩ : DrawRecord)] batch_size
      (fun _ => ([] : List TFValue)) self.features [] hstack
    have heq : (self.make_batch_with_iterator it batch_size).1.1 =
        buildSample self.features
          [(⟨it.stream it.nextIdx, []⟩ : DrawRecord)] batch_size := by
      simp [DataReader.make_batch_with_iterator, hneg]
    rw [heq]
    unfold buildSample
    rw [hgo]
    show Except.ok (self.features.foldl (fun s kv =>
      pyInsert s kv.1 (kv.2.stack [])) []) = _
    rw [foldl_pyInsert_eq_pyDict self.features (fun kv => kv.2.stack [])]
    congr 1
    apply pyDict_of_nodup
    rw [pyKeys_map_pair]
    exact hnd

/-- Witness for C10 at `batch_size = 0`: one draw is issued, the iterator
advances to position 1, and the result stacks empty lists. -/
theorem make_batch_no_batch_size_validation_witness :
    (testReader.make_batch_with_iterator testIterator 0).1.2.1.length = 1 ∧
    (testReader.make_batch_with_iterator testIterator 0).1.2.2.nextIdx = 1 ∧
    (testReader.make_batch_with_iterator testIterator 0).1.1 =
      Except.ok [("x", TFValue.dictVal []), ("y", TFValue.dictVal [])] := by
  have h := make_batch_no_batch_size_validation testReader testIterator 0
    (by decide)
  refine ⟨h.1, ?_, ?_⟩
  · rw [h.2.1]
    rfl
  · rw [h.2.2 (by decide) (by decide)]
    rfl

/-- C6: in `get_standard_batch`, whenever `shuffle_data` is true the
source-list shuffle reads the local `data_sources` before its assignment,
so every such call fails with `UnboundLocalError` on `data_sources` before
any pipeline is built; with `shuffle_data` false the shuffle is skipped
and the pipeline is built over the globbed source-file list as normal. -/
theorem get_standard_batch_shuffle_unbound_local :
    ∀ (self : DataReader) (globFn : String → List String)
      (mkIterator : TFDatasetAst → GraphIterator) (name : String)
      (batch_size : Int) (buffer_size : Option Int)
      (repeatCount : Option Nat),
      ((self.get_standard_batch globFn mkIterator name batch_size true
          buffer_size repeatCount).1.result =
        Except.error (PyError.unboundLocalError "data_sources")) ∧
      ((self.get_standard_batch globFn mkIterator name batch_size true
          buffer_size repeatCount).1.dataset = none) ∧
      ((self.get_standard_batch globFn mkIterator name batch_size false
          buffer_size repeatCount).1.dataset =
        some (TFDatasetAst.repeated (TFDatasetAst.mapped
          (TFDatasetAst.tfrecord
            (globFn (pathJoin3 self.data_dir name "*.tfrecords"))))
          repeatCount)) := by
  intro self globFn mkIterator name batch_size buffer_size repeatCount
  exact ⟨rfl, rfl, rfl⟩

/-- C7: `load_npz_file` builds exactly the path
`<data_dir>/<name>/<index formatted with minimum width 4, zero-filled>.npz`
(index 7 gives `0007.npz`), fails with the not-found error naming that
path when the file is absent, returns the archive's full contents
unchanged when present, and never consults the feature registry (readers
differing only in their features load identically). -/
theorem load_npz_file_exact_path_and_contents (self : DataNpzReader)
    (fs : String → Option NpzDict) (name : String) (index : Int) :
    (format04d 7 = "0007") ∧
    (fs (pathJoin3 self.data_dir name (format04d index ++ ".npz")) = none →
      (self.load_npz_file fs name index).1 = Except.error
        (PyError.fileNotFoundError
          (pathJoin3 self.data_dir name (format04d index ++ ".npz")))) ∧
    (∀ contents,
      fs (pathJoin3 self.data_dir name (format04d index ++ ".npz")) =
        some contents →
      (pyKeys contents).Nodup →
      (self.load_npz_file fs name index).1 = Except.ok contents) ∧
    (∀ other : DataNpzReader, other.data_dir = self.data_dir →
      (other.load_npz_file fs name index).1 =
        (self.load_npz_file fs name index).1) := by
  refine ⟨rfl, ?_, ?_, ?_⟩
  · intro hmiss
    simp [DataNpzReader.load_npz_file, hmiss]
  · intro contents hsome hnd
    simp [DataNpzReader.load_npz_file, hsome, pyDict_of_nodup contents hnd]
  · intro other hdd
    simp only [DataNpzReader.load_npz_file, hdd]
    cases fs (pathJoin3 self.data_dir name (format04d index ++ ".npz")) <;>
      rfl

/-- Witness for C7: on the concrete filesystem holding only
`/data/data_test/0007.npz`, index 7 returns the archive's contents and
index 3 fails with the not-found error naming `0003.npz`. -/
theorem load_npz_file_exact_path_and_contents_witness :
    (DataNpzReader.load_npz_file testReader testFs "data_test" 7).1 =
      Except.ok [("x", 42)] ∧
    (DataNpzReader.load_npz_file testReader testFs "data_test" 3).1 =
      Except.error (PyError.fileNotFoundError "/data/data_test/0003.npz") := by
  have h7 := load_npz_file_exact_path_and_contents testReader testFs
    "data_test" 7
  have h3 := load_npz_file_exact_path_and_contents testReader testFs
    "data_test" 3
  constructor
  · exact h7.2.2.1 [("x", 42)] (by rfl) (by decide)
  · rw [h3.2.1 (by rfl)]
    rfl

/-- C8: for registries storing each feature under its own key (as
`__init__` builds them), `get_feed_dict` returns the union of the
per-feature feed maps — each feature contributing the bindings it owns
for its raw value — and if the caller's `value_dict` lacks an entry for
any registered feature key the call fails with a `KeyError` instead of
silently omitting that feature's placeholders. -/
theorem get_feed_dict_union_or_missing (self : DataNpzReader)
    (placeholders : FeedMap) (value_dict : Sample) (batch : Bool)
    (hwf : ∀ kv ∈ self.features, kv.2.key = kv.1) :
    ((∀ kv ∈ self.features, (pyFind value_dict kv.1).isSome) →
      (self.get_feed_dict placeholders value_dict batch).1 =
        Except.ok (self.features.foldl (fun fd kv =>
          pyUpdate fd (kv.2.feed_fn placeholders
            ((pyFind value_dict kv.1).getD default) batch)) [])) ∧
    (∀ kv ∈ self.features, pyFind value_dict kv.1 = none →
      ∃ k, (self.get_feed_dict placeholders value_dict batch).1 =
        Except.error (PyError.keyError k)) := by
  constructor
  · intro hall
    show feedDictGo placeholders value_dict batch self.features [] = _
    rw [feedDictGo_ok placeholders value_dict batch self.features []
      (fun kv hkv => by rw [hwf kv hkv]; exact hall kv hkv)]
    congr 1
    apply List.foldl_ext
    intro fd kv hkv
    rw [hwf kv hkv]
  · intro kv hkv hnone
    exact feedDictGo_error placeholders value_dict batch self.features []
      ⟨kv, hkv, by rw [hwf kv hkv]; exact hnone⟩

/-- Witness for C8: on the two-feature reader with a complete
`value_dict`, the feed map is the union of both features' bindings. -/
theorem get_feed_dict_union_or_missing_witness :
    (DataNpzReader.get_feed_dict testReader []
      [("x", TFValue.tensor 5), ("y", TFValue.tensor 6)] true).1 =
      Except.ok [(1, TFValue.tensor 5), (2, TFValue.tensor 6)] := by
  have h := get_feed_dict_union_or_missing testReader []
    [("x", TFValue.tensor 5), ("y", TFValue.tensor 6)] true
    (by
      intro kv hkv
      simp only [testReader, List.mem_cons, List.not_mem_nil, or_false] at hkv
      rcases hkv with rfl | rfl <;> rfl)
  rw [h.1 (by
    intro kv hkv
    simp only [testReader, List.mem_cons, List.not_mem_nil, or_false] at hkv
    rcases hkv with rfl | rfl <;> rfl)]
  rfl

/-- C9: the reader's state (`data_dir` and the features registry) built by
`__init__` is never modified afterwards: every public operation returns
`self` unchanged, so every call after construction observes the same
registry. -/
theorem reader_state_immutable (self : DataReader)
    (parse : Record → ReadSpec → Example) (globFn : String → List String)
    (mkIterator : TFDatasetAst → GraphIterator) (it : GraphIterator)
    (name : String) (batch_size : Int) (shuffle_data : Bool)
    (buffer_size : Option Int) (repeatCount : Option Nat) (batch : Bool)
    (placeholders : FeedMap) (value_dict : Sample)
    (fs : String → Option NpzDict) (index : Int) :
    (self.get_parser_op parse).2 = self ∧
    (self.get_tf_dataset globFn name).2 = self ∧
    (self.make_batch_with_iterator it batch_size).2 = self ∧
    (self.get_standard_batch globFn mkIterator name batch_size shuffle_data
      buffer_size repeatCount).2 = self ∧
    (DataNpzReader.get_placeholders self batch).2 = self ∧
    (DataNpzReader.get_feed_dict self placeholders value_dict batch).2 =
      self ∧
    (DataNpzReader.load_npz_file self fs name index).2 = self := by
  refine ⟨rfl, rfl, rfl, ?_, rfl, rfl, ?_⟩
  · cases shuffle_data <;> rfl
  · cases hfs : fs (pathJoin3 self.data_dir name (format04d index ++ ".npz"))
      <;> simp [DataNpzReader.load_npz_file, hfs]

end TfDataLoader
